import Mathlib

/-!
Verification of the SOL_Formatter document classification and extraction
engine (`sol_formatter/parser.py` and `sol_formatter/openai_extractor.py`).

Strings are embedded as `List Char`.  Python's `re.match` anchors at the
start of the string only (a prefix match), so every pattern matcher below
consumes a prefix and ignores whatever input remains after the pattern.
Python's character classes `\d`, `\s`, `[A-Z]`, `[a-z]` are modelled over
their ASCII ranges.
-/

namespace SOLFormatter

/-- ASCII whitespace, the characters Python's `\s` and `str.strip` treat as
whitespace. -/
def isPySpace (c : Char) : Bool :=
  c = ' ' || c = '\t' || c = '\n' || c = '\r' || c = '\x0b' || c = '\x0c'

/-- Split a list at the end of its maximal leading run of characters
satisfying `p` (the semantics of a greedy character-class repetition whose
follower cannot satisfy `p`). -/
def spanP (p : Char → Bool) : List Char → List Char × List Char
  | [] => ([], [])
  | c :: cs =>
    if p c then
      let r := spanP p cs
      (c :: r.1, r.2)
    else ([], c :: cs)

/-- Consume an exact literal from the front of the input, returning the
remainder, or `none` when the input does not start with the literal. -/
def stripLit : List Char → List Char → Option (List Char)
  | [], cs => some cs
  | _ :: _, [] => none
  | l :: ls, c :: cs => if c = l then stripLit ls cs else none

/-- `\d+` : a nonempty maximal run of digits (used only where the regex
continues with a character that cannot be a digit, so greedy matching with
backtracking coincides with maximal munch). -/
def digits1 (cs : List Char) : Option (List Char × List Char) :=
  let r := spanP Char.isDigit cs
  if r.1.isEmpty then none else some r

/-- `\s+` : a nonempty maximal run of whitespace (used only where the regex
continues with a character that cannot be whitespace). -/
def spaces1 (cs : List Char) : Option (List Char) :=
  let r := spanP isPySpace cs
  if r.1.isEmpty then none else some r.2

/-- Lazy `(.+?)` followed by the rest of the pattern `tail`: consume at
least one character (never a newline, which `.` cannot match), trying
`tail` on the remainder after each consumed character and stopping at the
first position where it matches.  Returns the captured characters together
with `tail`'s result. -/
def lazyUntil {α : Type} (tail : List Char → Option α) :
    List Char → List Char → Option (List Char × α)
  | _, [] => none
  | acc, c :: rest =>
    if c = '\n' then none
    else
      match tail rest with
      | some a => some (acc ++ [c], a)
      | none => lazyUntil tail (acc ++ [c]) rest

/-- Greedy `\s+` directly followed by a lazy `(.+?)` and then `tail`:
`sp` is the maximal whitespace run and `r` the input after it.  Regex
backtracking first consumes all of `sp`, then retries with ever fewer
whitespace characters, the unconsumed trailing whitespace becoming part of
the lazy capture.  The fuel argument counts how many whitespace characters
the `\s+` still may consume and starts at `sp.length`. -/
def trySpaceSplits {α : Type} (tail : List Char → Option α) (sp r : List Char) :
    Nat → Option (List Char × α)
  | 0 => none
  | n + 1 =>
    match lazyUntil tail [] (sp.drop (n + 1) ++ r) with
    | some res => some res
    | none => trySpaceSplits tail sp r n

/-- Decimal value of a digit string, the embedding of Python's `int`. -/
def listToNat (cs : List Char) : Nat :=
  cs.foldl (fun a c => a * 10 + (c.toNat - 48)) 0

/-- The fixed number-to-course table `subject_map` of
`SOLParser._get_grade_level`. -/
def subject_map : List (Int × List Char) :=
  [(9, "Algebra 1".toList),
   (10, "Geometry".toList),
   (11, "AFDA".toList),
   (12, "Algebra 2".toList),
   (13, "Trigonometry".toList),
   (14, "Computational Mathematics".toList),
   (15, "Probability & Statistics".toList),
   (16, "Discrete Mathematics".toList),
   (17, "Mathematical Analysis".toList),
   (18, "Data Science".toList)]

/-- `SOLParser._get_grade_level`: map a document number to a grade label,
a course name from `subject_map`, or (`dict.get` default) the subject
verbatim. -/
def _get_grade_level (num : Int) (subject : List Char) : List Char :=
  if 1 ≤ num ∧ num ≤ 8 then "Grade ".toList ++ (toString num).toList
  else (subject_map.lookup num).getD subject

/-- Tail of `sol_pattern` after the lazy subject capture:
`-(\d{4})-Approved-Math-SOL\.docx` as a prefix of the remainder, returning
the captured year.  `\d{4}` consumes exactly four characters. -/
def solTail (cs : List Char) : Option (List Char) :=
  match cs with
  | '-' :: rest =>
    let y := rest.take 4
    if y.length == 4 && y.all Char.isDigit
        && ("-Approved-Math-SOL.docx".toList).isPrefixOf (rest.drop 4)
    then some y else none
  | _ => none

/-- `re.match` of `sol_pattern`
`(\d+)-(.+?)-(\d{4})-Approved-Math-SOL\.docx`, returning the captured
(number, subject, year). -/
def matchSol (cs : List Char) : Option (List Char × List Char × List Char) :=
  (digits1 cs).bind fun nr =>
    match nr.2 with
    | '-' :: r2 =>
      (lazyUntil solTail [] r2).map fun sy => (nr.1, sy.1, sy.2)
    | _ => none

/-- `re.match` of `guide_pattern`
`(\d+)\.\s+Grade\s+(\d+)\s+Mathematics\s+Instructional\s+Guide\.docx`,
returning the captured (number, grade).  Every repetition is followed by a
character its class cannot match, so the whole pattern is deterministic. -/
def matchGuide (cs : List Char) : Option (List Char × List Char) :=
  (digits1 cs).bind fun nr =>
    match nr.2 with
    | '.' :: r2 =>
      (spaces1 r2).bind fun r3 =>
      (stripLit "Grade".toList r3).bind fun r4 =>
      (spaces1 r4).bind fun r5 =>
      (digits1 r5).bind fun gr =>
      (spaces1 gr.2).bind fun r7 =>
      (stripLit "Mathematics".toList r7).bind fun r8 =>
      (spaces1 r8).bind fun r9 =>
      (stripLit "Instructional".toList r9).bind fun r10 =>
      (spaces1 r10).bind fun r11 =>
      (stripLit "Guide.docx".toList r11).map fun _ => (nr.1, gr.1)
    | _ => none

/-- Tail of `understanding_pattern` after the lazy subject capture:
`-Understanding\s+the\s+Standards\.docx` as a prefix of the remainder. -/
def uTail (cs : List Char) : Option Unit :=
  match cs with
  | '-' :: rest =>
    (stripLit "Understanding".toList rest).bind fun r1 =>
    (spaces1 r1).bind fun r2 =>
    (stripLit "the".toList r2).bind fun r3 =>
    (spaces1 r3).bind fun r4 =>
    (stripLit "Standards.docx".toList r4).map fun _ => ()
  | _ => none

/-- `re.match` of `understanding_pattern`
`(\d+)-(.+?)-Understanding\s+the\s+Standards\.docx`, returning the
captured (number, subject). -/
def matchUnderstanding (cs : List Char) : Option (List Char × List Char) :=
  (digits1 cs).bind fun nr =>
    match nr.2 with
    | '-' :: r2 =>
      (lazyUntil uTail [] r2).map fun su => (nr.1, su.1)
    | _ => none

/-- Tail of `subject_guide_pattern` after the lazy subject capture:
`\s+Mathematics\s+Instructional\s+Guide\.docx` as a prefix of the
remainder. -/
def sgTail (cs : List Char) : Option Unit :=
  (spaces1 cs).bind fun r1 =>
  (stripLit "Mathematics".toList r1).bind fun r2 =>
  (spaces1 r2).bind fun r3 =>
  (stripLit "Instructional".toList r3).bind fun r4 =>
  (spaces1 r4).bind fun r5 =>
  (stripLit "Guide.docx".toList r5).map fun _ => ()

/-- `re.match` of `subject_guide_pattern`
`(\d+)\.\s+(.+?)\s+Mathematics\s+Instructional\s+Guide\.docx`, returning
the captured (number, subject).  The `\s+` right before the lazy capture
does interact with it under backtracking, which `trySpaceSplits` models. -/
def matchSubjectGuide (cs : List Char) : Option (List Char × List Char) :=
  (digits1 cs).bind fun nr =>
    match nr.2 with
    | '.' :: r2 =>
      let spr := spanP isPySpace r2
      if spr.1.isEmpty then none
      else
        (trySpaceSplits sgTail spr.1 spr.2 spr.1.length).map fun su => (nr.1, su.1)
    | _ => none

/-- The metadata dictionary returned by `SOLParser._parse_filename`; absent
dictionary keys are `none`. -/
structure DocMeta where
  type_ : List Char
  number : Option (List Char)
  subject : Option (List Char)
  year : Option (List Char)
  grade : Option (List Char)
  grade_level : Option (List Char)
  filename : Option (List Char)
deriving DecidableEq, Repr

/-- `SOLParser._parse_filename`: try the four filename patterns in source
order, first match wins; no pattern matching yields the `Unknown` record
holding only the filename. -/
def classify (fname : List Char) : DocMeta :=
  match matchSol fname with
  | some (num, subject, year) =>
    { type_ := "Approved SOL Standards".toList
      number := some num
      subject := some subject
      year := some year
      grade := none
      grade_level := some (_get_grade_level (Int.ofNat (listToNat num)) subject)
      filename := none }
  | none =>
  match matchGuide fname with
  | some (num, grade) =>
    { type_ := "Instructional Guide".toList
      number := some num
      subject := some "Mathematics".toList
      year := none
      grade := some grade
      grade_level := some ("Grade ".toList ++ grade)
      filename := none }
  | none =>
  match matchUnderstanding fname with
  | some (num, subject) =>
    { type_ := "Understanding the Standards".toList
      number := some num
      subject := some subject
      year := none
      grade := none
      grade_level := some (_get_grade_level (Int.ofNat (listToNat num)) subject)
      filename := none }
  | none =>
  match matchSubjectGuide fname with
  | some (num, subject) =>
    { type_ := "Instructional Guide".toList
      number := some num
      subject := some subject
      year := none
      grade := none
      grade_level := some (_get_grade_level (Int.ofNat (listToNat num)) subject)
      filename := none }
  | none =>
    { type_ := "Unknown".toList
      number := none
      subject := none
      year := none
      grade := none
      grade_level := none
      filename := some fname }

/-- Python `str.strip()`: remove leading and trailing whitespace. -/
def pyStrip (cs : List Char) : List Char :=
  ((cs.dropWhile isPySpace).reverse.dropWhile isPySpace).reverse

/-- `'.' followed by a digit` at the head of the remainder: the shape both
standard patterns require right after their leading run (`\.\d+` needs one
digit and the rest of the input is irrelevant under prefix matching). -/
def dotDigit : List Char → Bool
  | c :: d :: _ => c = '.' && d.isDigit
  | _ => false

/-- `re.match` of `^[A-Z]{1,4}\.\d+` as a Boolean: the greedy counted
repetition backtracks over the four admissible lengths. -/
def letterPat (cs : List Char) : Bool :=
  [4, 3, 2, 1].any fun k =>
    (cs.take k).length == k && (cs.take k).all (fun c => c.isUpper)
      && dotDigit (cs.drop k)

/-- `re.match` of `^\d+\.\d+[a-z]?` as a Boolean: maximal leading digit
run, a dot, then at least one digit; the optional trailing lowercase
letter can never cause failure under prefix matching. -/
def numPat (cs : List Char) : Bool :=
  let r := spanP Char.isDigit cs
  !r.1.isEmpty && dotDigit r.2

/-- `SOLParser._is_standard`: the text matches one of the two standard
identifier patterns at its start. -/
def _is_standard (cs : List Char) : Bool :=
  letterPat cs || numPat cs

/-- One paragraph of the already-decoded document tree: its text and the
optional style name (`para.style.name if para.style else None`). -/
structure Para where
  text : List Char
  style : Option (List Char)
deriving DecidableEq, Repr

/-- The already-decoded document tree `_extract_content` walks: paragraphs
in order, and tables as ordered rows of ordered cell texts. -/
structure DocxDoc where
  paragraphs : List Para
  tables : List (List (List (List Char)))
deriving DecidableEq, Repr

/-- The dictionary returned by `SOLParser._extract_content`. -/
structure ContentRecord where
  paragraphs : List Para
  tables : List (List (List (List Char)))
  identified_standards : List (List Char)
  total_paragraphs : Nat
  total_tables : Nat
deriving DecidableEq, Repr

/-- The paragraph loop of `_extract_content`: strip each paragraph, keep
the nonempty ones, and append the stripped text of those recognised by
`_is_standard` to the standards list, all in document order. -/
def extractParas : List Para → List Para × List (List Char)
  | [] => ([], [])
  | p :: ps =>
    let t := pyStrip p.text
    let rest := extractParas ps
    if t.isEmpty then rest
    else ({ text := t, style := p.style } :: rest.1,
          if _is_standard t then t :: rest.2 else rest.2)

/-- The per-table body of the table loop: strip every cell, keep the rows
with at least one nonempty cell (Python's `any(row_data)` truthiness). -/
def tableData (t : List (List (List Char))) : List (List (List Char)) :=
  (t.map fun row => row.map pyStrip).filter fun row =>
    row.any fun cell => !cell.isEmpty

/-- The table loop of `_extract_content`: a table is kept only when its
cleaned row list is nonempty (Python's `if table_data:`). -/
def extractTables : List (List (List (List Char))) → List (List (List (List Char)))
  | [] => []
  | t :: ts =>
    let td := tableData t
    if td.isEmpty then extractTables ts else td :: extractTables ts

/-- `SOLParser._extract_content`. -/
def _extract_content (doc : DocxDoc) : ContentRecord :=
  let pr := extractParas doc.paragraphs
  let ts := extractTables doc.tables
  { paragraphs := pr.1
    tables := ts
    identified_standards := pr.2
    total_paragraphs := pr.1.length
    total_tables := ts.length }

/-- A Python value, restricted to the shapes `validate_output` can ever
see in a decoded JSON object (dictionary keys are strings). -/
inductive PyVal where
  | str : List Char → PyVal
  | int : Int → PyVal
  | bool : Bool → PyVal
  | none' : PyVal
  | list : List PyVal → PyVal
  | dict : List (List Char × PyVal) → PyVal

/-- Substring test, the semantics of Python's `in` on strings. -/
def isSubstr (needle : List Char) : List Char → Bool
  | [] => needle.isEmpty
  | c :: t => needle.isPrefixOf (c :: t) || isSubstr needle t

/-- Equality of a Python value with a given string under Python `==`
(values of other types never equal a string). -/
def eqStr (key : List Char) : PyVal → Bool
  | .str s => s == key
  | _ => false

/-- Python `key in v`: dictionary key lookup, list membership, or
substring test; a `TypeError` (modelled as `Except.error`) on
non-container values. -/
def pyIn (key : List Char) : PyVal → Except Unit Bool
  | .dict kvs => .ok (kvs.any fun kv => kv.1 == key)
  | .list xs => .ok (xs.any (eqStr key))
  | .str s => .ok (isSubstr key s)
  | _ => .error ()

/-- Python `v[key]` for a string key: dictionary lookup, `KeyError` when
the key is absent, `TypeError` on every non-dictionary value. -/
def pySub (v : PyVal) (key : List Char) : Except Unit PyVal :=
  match v with
  | .dict kvs =>
    match kvs.lookup key with
    | some x => .ok x
    | none => .error ()
  | _ => .error ()

/-- `isinstance(v, list)`. -/
def isList : PyVal → Bool
  | .list _ => true
  | _ => false

/-- `assert b`, raising `AssertionError` when `b` is false. -/
def pyAssert (b : Bool) : Except Unit Unit :=
  if b then .ok () else .error ()

/-- `assert key in v`: the `in` test may itself raise a `TypeError`, and a
false result raises `AssertionError`. -/
def pyAssertIn (key : List Char) (v : PyVal) : Except Unit Unit :=
  match pyIn key v with
  | .error e => .error e
  | .ok b => pyAssert b

/-- The per-standard assertions of `validate_output`. -/
def checkStandardE (standard : PyVal) : Except Unit Unit :=
  (pyAssertIn "standard_id".toList standard).bind fun _ =>
  (pyAssertIn "standard_statement".toList standard).bind fun _ =>
  pyAssertIn "knowledge_and_skills".toList standard

/-- The `for standard in strand["standards"]` loop. -/
def checkStandardsE : List PyVal → Except Unit Unit
  | [] => .ok ()
  | s :: rest => (checkStandardE s).bind fun _ => checkStandardsE rest

/-- The per-strand assertions of `validate_output`, including the
`isinstance(strand["standards"], list)` check and the inner loop. -/
def checkStrandE (strand : PyVal) : Except Unit Unit :=
  (pyAssertIn "strand_code".toList strand).bind fun _ =>
  (pyAssertIn "strand_name".toList strand).bind fun _ =>
  (pyAssertIn "standards".toList strand).bind fun _ =>
  (pySub strand "standards".toList).bind fun stds =>
  (pyAssert (isList stds)).bind fun _ =>
  match stds with
  | .list xs => checkStandardsE xs
  | _ => .error ()

/-- The `for strand in data["strands"]` loop. -/
def checkStrandsE : List PyVal → Except Unit Unit
  | [] => .ok ()
  | s :: rest => (checkStrandE s).bind fun _ => checkStrandsE rest

/-- The `try` block of `OpenAIExtractor.validate_output`: the top-level
assertions followed by the strand loop. -/
def validateBody (data : PyVal) : Except Unit Unit :=
  (pyAssertIn "document_metadata".toList data).bind fun _ =>
  (pyAssertIn "strands".toList data).bind fun _ =>
  (pySub data "strands".toList).bind fun strands =>
  (pyAssert (isList strands)).bind fun _ =>
  match strands with
  | .list xs => checkStrandsE xs
  | _ => Except.error ()

/-- `OpenAIExtractor.validate_output`: run the assertion body; any
`AssertionError`, `KeyError` or `TypeError` is caught and turned into
`False`, so the function is total and never raises. -/
def validate_output (data : PyVal) : Bool :=
  match validateBody data with
  | .ok _ => true
  | .error _ => false

/-- Total Boolean version of Python's `key in v`: `false` both when the
test returns `False` and when it raises, the two cases `validate_output`
conflates. -/
def pyInB (key : List Char) (v : PyVal) : Bool :=
  match pyIn key v with
  | .ok b => b
  | .error _ => false

/-- The shape contract `validate_output` decides, stated directly: both
top-level keys present, `strands` a list whose members each carry the
three strand keys with `standards` a list whose members each carry the
three standard keys. -/
def ValidShape (data : PyVal) : Prop :=
  pyInB "document_metadata".toList data = true ∧
  pyInB "strands".toList data = true ∧
  ∃ xs, pySub data "strands".toList = .ok (.list xs) ∧
    ∀ strand ∈ xs,
      pyInB "strand_code".toList strand = true ∧
      pyInB "strand_name".toList strand = true ∧
      pyInB "standards".toList strand = true ∧
      ∃ ys, pySub strand "standards".toList = .ok (.list ys) ∧
        ∀ std ∈ ys,
          pyInB "standard_id".toList std = true ∧
          pyInB "standard_statement".toList std = true ∧
          pyInB "knowledge_and_skills".toList std = true

/-- The spec's valid example record: one strand with an empty standards
list. -/
def exGood : PyVal :=
  .dict [("document_metadata".toList, .dict []),
    ("strands".toList, .list [.dict [("strand_code".toList, .str "NS".toList),
      ("strand_name".toList, .str "X".toList),
      ("standards".toList, .list [])]])]

/-- The spec's invalid example record: its strand lacks `strand_code`. -/
def exBadStrand : PyVal :=
  .dict [("document_metadata".toList, .dict []),
    ("strands".toList, .list [.dict [("strand_name".toList, .str "X".toList),
      ("standards".toList, .list [])]])]

/-- A standard dictionary carrying the three required keys, with an
arbitrary value under `knowledge_and_skills`. -/
def stdKAS (v : PyVal) : PyVal :=
  .dict [("standard_id".toList, .str "1.NS.1".toList),
    ("standard_statement".toList, .str "s".toList),
    ("knowledge_and_skills".toList, v)]

/-- A full record carrying every key `validate_output` checks, whose
single standard holds `v` under `knowledge_and_skills`. -/
def docKAS (v : PyVal) : PyVal :=
  .dict [("document_metadata".toList, .dict []),
    ("strands".toList, .list [.dict [("strand_code".toList, .str "NS".toList),
      ("strand_name".toList, .str "X".toList),
      ("standards".toList, .list [stdKAS v])]])]

/-! ## Helper lemmas -/

theorem spanP_append_cons (p : Char → Bool) (a : List Char) (d : Char) (t : List Char)
    (ha : ∀ c ∈ a, p c = true) (hd : p d = false) :
    spanP p (a ++ d :: t) = (a, d :: t) := by
  induction a with
  | nil => simp [spanP, hd]
  | cons x xs ih =>
    have hx : p x = true := ha x (by simp)
    have ih' := ih (fun c hc => ha c (by simp [hc]))
    simp [spanP, hx, ih']

theorem stripLit_append (l r : List Char) : stripLit l (l ++ r) = some r := by
  induction l with
  | nil => rfl
  | cons c cs ih => simp [stripLit, ih]

theorem not_space_of_digit (c : Char) (h : c.isDigit = true) : isPySpace c = false := by
  cases hsp : isPySpace c
  · rfl
  · exfalso
    simp only [isPySpace, Bool.or_eq_true, decide_eq_true_eq] at hsp
    rcases hsp with ((((h1 | h1) | h1) | h1) | h1) | h1 <;> subst h1 <;>
      exact absurd h (by decide)

theorem digits1_append (n : List Char) (d : Char) (t : List Char)
    (hn : n ≠ []) (hd : d.isDigit = false) (hall : ∀ c ∈ n, c.isDigit = true) :
    digits1 (n ++ d :: t) = some (n, d :: t) := by
  have he : n.isEmpty = false := by
    cases n with
    | nil => exact absurd rfl hn
    | cons a as => rfl
  simp [digits1, spanP_append_cons _ _ _ _ hall hd, he]

theorem spaces1_single (d : Char) (t : List Char) (hd : isPySpace d = false) :
    spaces1 (' ' :: d :: t) = some (d :: t) := by
  have h := spanP_append_cons isPySpace [' '] d t
    (by intro c hc; simp at hc; subst hc; rfl) hd
  simp only [List.cons_append, List.nil_append] at h
  simp [spaces1, h]

theorem matchSol_dot (n : List Char) (t : List Char)
    (hall : ∀ c ∈ n, c.isDigit = true) :
    matchSol (n ++ '.' :: t) = none := by
  cases n with
  | nil =>
    have : spanP Char.isDigit ('.' :: t) = ([], '.' :: t) := by
      simp [spanP, (by decide : ('.').isDigit = false)]
    simp [matchSol, digits1, this]
  | cons a as =>
    rw [matchSol, digits1_append (a :: as) '.' t (by simp) (by decide) hall]
    rfl

theorem matchGuide_c1 (n m : List Char) (hn : n ≠ []) (hm : m ≠ [])
    (hdn : ∀ c ∈ n, c.isDigit = true) (hdm : ∀ c ∈ m, c.isDigit = true) :
    matchGuide (n ++ '.' :: ' ' :: ("Grade".toList ++ ' ' ::
      (m ++ ' ' :: ("Mathematics".toList ++ ' ' ::
        ("Instructional".toList ++ ' ' :: "Guide.docx".toList))))) = some (n, m) := by
  obtain ⟨c, m', rfl⟩ := List.exists_cons_of_ne_nil hm
  have hc : c.isDigit = true := hdm c (by simp)
  have hcs : isPySpace c = false := not_space_of_digit c hc
  have egr : "Grade".toList = ['G', 'r', 'a', 'd', 'e'] := rfl
  have ema : "Mathematics".toList = ['M', 'a', 't', 'h', 'e', 'm', 'a', 't', 'i', 'c', 's'] := rfl
  have ein : "Instructional".toList
      = ['I', 'n', 's', 't', 'r', 'u', 'c', 't', 'i', 'o', 'n', 'a', 'l'] := rfl
  have egu : "Guide.docx".toList = ['G', 'u', 'i', 'd', 'e', '.', 'd', 'o', 'c', 'x'] := rfl
  have hdm' : ∀ x ∈ m', x.isDigit = true := fun x hx => hdm x (by simp [hx])
  have hspann := spanP_append_cons Char.isDigit n '.' (' ' :: ("Grade".toList ++ ' ' ::
      ((c :: m') ++ ' ' :: ("Mathematics".toList ++ ' ' ::
        ("Instructional".toList ++ ' ' :: "Guide.docx".toList))))) hdn (by decide)
  have hspanm := spanP_append_cons Char.isDigit m' ' ' ("Mathematics".toList ++ ' ' ::
      ("Instructional".toList ++ ' ' :: "Guide.docx".toList)) hdm' (by decide)
  have hne : n.isEmpty = false := by
    cases n with
    | nil => exact absurd rfl hn
    | cons a as => rfl
  have t1 : isPySpace ' ' = true := rfl
  have f1 : isPySpace 'G' = false := rfl
  have f2 : isPySpace 'M' = false := rfl
  have f3 : isPySpace 'I' = false := rfl
  simp only [List.cons_append, List.nil_append, egr, ema, ein, egu] at hspann hspanm ⊢
  simp [matchGuide, digits1, spaces1, spanP, stripLit, Option.bind,
    hspann, hspanm, hne, hc, hcs, t1, f1, f2, f3]

theorem pyAssert_ok (b : Bool) : pyAssert b = .ok () ↔ b = true := by
  cases b <;> simp [pyAssert]

theorem pyAssertIn_eq (k : List Char) (v : PyVal) :
    pyAssertIn k v = pyAssert (pyInB k v) := by
  cases h : pyIn k v with
  | ok b => simp [pyAssertIn, pyInB, h]
  | error e => simp [pyAssertIn, pyInB, pyAssert, h]

theorem bindE_ok {α : Type} (x : Except Unit α) (f : α → Except Unit Unit) :
    x.bind f = .ok () ↔ ∃ a, x = .ok a ∧ f a = .ok () := by
  cases x <;> simp [Except.bind]

theorem exists_unit (p : Unit → Prop) : (∃ a : Unit, p a) ↔ p () := by
  constructor
  · rintro ⟨a, h⟩
    exact h
  · intro h
    exact ⟨(), h⟩

theorem checkStandardE_ok (s : PyVal) :
    checkStandardE s = .ok () ↔
      pyInB "standard_id".toList s = true ∧
      pyInB "standard_statement".toList s = true ∧
      pyInB "knowledge_and_skills".toList s = true := by
  rw [checkStandardE, pyAssertIn_eq, pyAssertIn_eq, pyAssertIn_eq]
  simp only [bindE_ok, exists_unit, pyAssert_ok, and_assoc]

theorem checkStandardsE_ok (xs : List PyVal) :
    checkStandardsE xs = .ok () ↔ ∀ s ∈ xs, checkStandardE s = .ok () := by
  induction xs with
  | nil => simp [checkStandardsE]
  | cons s rest ih =>
    cases h : checkStandardE s with
    | ok a => cases a; simp [checkStandardsE, Except.bind, h, ih]
    | error e => cases e; simp [checkStandardsE, Except.bind, h]

theorem checkStrandE_ok (s : PyVal) :
    checkStrandE s = .ok () ↔
      pyInB "strand_code".toList s = true ∧
      pyInB "strand_name".toList s = true ∧
      pyInB "standards".toList s = true ∧
      ∃ ys, pySub s "standards".toList = .ok (.list ys) ∧
        checkStandardsE ys = .ok () := by
  rw [checkStrandE, pyAssertIn_eq, pyAssertIn_eq, pyAssertIn_eq]
  simp only [bindE_ok, exists_unit, pyAssert_ok, and_assoc]
  constructor
  · rintro ⟨h1, h2, h3, a, hsub, hl, hm⟩
    cases a <;> simp [isList] at hl
    exact ⟨h1, h2, h3, _, hsub, by simpa using hm⟩
  · rintro ⟨h1, h2, h3, ys, hsub, hck⟩
    exact ⟨h1, h2, h3, .list ys, hsub, rfl, by simpa using hck⟩

theorem checkStrandsE_ok (xs : List PyVal) :
    checkStrandsE xs = .ok () ↔ ∀ s ∈ xs, checkStrandE s = .ok () := by
  induction xs with
  | nil => simp [checkStrandsE]
  | cons s rest ih =>
    cases h : checkStrandE s with
    | ok a => cases a; simp [checkStrandsE, Except.bind, h, ih]
    | error e => cases e; simp [checkStrandsE, Except.bind, h]

theorem validate_iff (data : PyVal) :
    validate_output data = true ↔ ValidShape data := by
  have hv : validate_output data = true ↔ validateBody data = .ok () := by
    cases h : validateBody data with
    | ok a => cases a; simp [validate_output, h]
    | error e => simp [validate_output, h]
  rw [hv, validateBody, pyAssertIn_eq, pyAssertIn_eq]
  simp only [bindE_ok, exists_unit, pyAssert_ok, and_assoc, ValidShape]
  constructor
  · rintro ⟨hdm, hstr, a, hsub, hl, hm⟩
    cases a <;> simp [isList] at hl
    refine ⟨hdm, hstr, _, hsub, ?_⟩
    intro strand hs
    have hck := (checkStrandsE_ok _).mp (by simpa using hm) strand hs
    obtain ⟨a1, a2, a3, ys, hsub2, hck2⟩ := (checkStrandE_ok strand).mp hck
    refine ⟨a1, a2, a3, ys, hsub2, ?_⟩
    intro std hstd
    exact (checkStandardE_ok std).mp ((checkStandardsE_ok ys).mp hck2 std hstd)
  · rintro ⟨hdm, hstr, xs, hsub, hall⟩
    refine ⟨hdm, hstr, .list xs, hsub, rfl, ?_⟩
    show checkStrandsE xs = .ok ()
    apply (checkStrandsE_ok xs).mpr
    intro strand hs
    obtain ⟨a1, a2, a3, ys, hsub2, hall2⟩ := hall strand hs
    apply (checkStrandE_ok strand).mpr
    refine ⟨a1, a2, a3, ys, hsub2, ?_⟩
    apply (checkStandardsE_ok ys).mpr
    intro std hstd
    exact (checkStandardE_ok std).mpr (hall2 std hstd)

/-! ## Claims -/

/-- Claim C1: a filename of the shape
`"N. Grade M Mathematics Instructional Guide.docx"` structurally matches
both the grade-guide pattern and the subject-guide pattern, and `classify`
applies the grade-guide pattern first: the result has type
`Instructional Guide`, subject fixed to `Mathematics`, and `grade_level`
the literal string `"Grade M"` taken from the filename, not a value of
the numeric lookup table. -/
theorem c1_guide_precedence (n m : List Char) (hn : n ≠ []) (hm : m ≠ [])
    (hdn : ∀ c ∈ n, c.isDigit = true) (hdm : ∀ c ∈ m, c.isDigit = true) :
    classify (n ++ ". Grade ".toList ++ m ++ " Mathematics Instructional Guide.docx".toList) =
      { type_ := "Instructional Guide".toList
        number := some n
        subject := some "Mathematics".toList
        year := none
        grade := some m
        grade_level := some ("Grade ".toList ++ m)
        filename := none } := by
  have hshape : n ++ ". Grade ".toList ++ m ++ " Mathematics Instructional Guide.docx".toList
      = n ++ '.' :: ' ' :: ("Grade".toList ++ ' ' ::
        (m ++ ' ' :: ("Mathematics".toList ++ ' ' ::
          ("Instructional".toList ++ ' ' :: "Guide.docx".toList)))) := by
    simp only [List.append_assoc]
    rfl
  rw [hshape, classify, matchSol_dot n _ hdn, matchGuide_c1 n m hn hm hdn hdm]

/-- Witness for C1 at the spec's concrete example
`"1. Grade 1 Mathematics Instructional Guide.docx"`. -/
theorem c1_guide_precedence_witness :
    classify (['1'] ++ ". Grade ".toList ++ ['1'] ++
        " Mathematics Instructional Guide.docx".toList) =
      { type_ := "Instructional Guide".toList
        number := some ['1']
        subject := some "Mathematics".toList
        year := none
        grade := some ['1']
        grade_level := some ("Grade ".toList ++ ['1'])
        filename := none } :=
  c1_guide_precedence ['1'] ['1'] (by decide) (by decide) (by decide) (by decide)

/-- Counterexample to claim C2 as stated: the four patterns are not a
bit-exact contract.  `re.match` anchors only at the start of the string,
so a filename with extra characters after a pattern's shape is still
classified; this one extends the grade-guide shape with `EXTRA` and is
classified `Instructional Guide`, not `Unknown`. -/
theorem c2_counterexample :
    classify "1. Grade 1 Mathematics Instructional Guide.docxEXTRA".toList =
      { type_ := "Instructional Guide".toList
        number := some ['1']
        subject := some "Mathematics".toList
        year := none
        grade := some ['1']
        grade_level := some "Grade 1".toList
        filename := none } ∧
    "Instructional Guide".toList ≠ "Unknown".toList :=
  ⟨rfl, by decide⟩

/-- Claim C2 as amended: `classify` yields `type = Unknown` exactly when
none of the four patterns matches a prefix of the filename (trailing
characters beyond a matched pattern do not cause `Unknown`), and in the
`Unknown` case the metadata holds only the filename, every other field
being absent. -/
theorem c2_unknown_iff (f : List Char) :
    ((classify f).type_ = "Unknown".toList ↔
      matchSol f = none ∧ matchGuide f = none ∧ matchUnderstanding f = none ∧
        matchSubjectGuide f = none) ∧
    ((classify f).type_ = "Unknown".toList →
      classify f =
        { type_ := "Unknown".toList
          number := none
          subject := none
          year := none
          grade := none
          grade_level := none
          filename := some f }) := by
  have d1 : "Approved SOL Standards".toList ≠ "Unknown".toList := by decide
  have d2 : "Instructional Guide".toList ≠ "Unknown".toList := by decide
  have d3 : "Understanding the Standards".toList ≠ "Unknown".toList := by decide
  rcases h1 : matchSol f with _ | ⟨num, subj, yr⟩
  · rcases h2 : matchGuide f with _ | ⟨num, gr⟩
    · rcases h3 : matchUnderstanding f with _ | ⟨num, subj⟩
      · rcases h4 : matchSubjectGuide f with _ | ⟨num, subj⟩
        · simp [classify, h1, h2, h3, h4]
        · simp [classify, h1, h2, h3, h4, d2]
      · simp [classify, h1, h2, h3, d3]
    · simp [classify, h1, h2, d2]
  · simp [classify, h1, d1]

/-- Witness for C2's amended theorem at a filename matching no pattern. -/
theorem c2_unknown_iff_witness :
    classify "x".toList =
      { type_ := "Unknown".toList
        number := none
        subject := none
        year := none
        grade := none
        grade_level := none
        filename := some "x".toList } :=
  (c2_unknown_iff "x".toList).2 rfl

/-- Claim C3: `resolve_grade_level(number, subject)` returns
`"Grade {number}"` for `1 ≤ number ≤ 8`, the fixed table entry for
`number` in `9..18`, and `subject` verbatim for every other number;
the function is total, so no error is ever raised. -/
theorem c3_resolve_grade_level (num : Int) (subject : List Char) :
    ((1 ≤ num ∧ num ≤ 8) →
      _get_grade_level num subject = "Grade ".toList ++ (toString num).toList) ∧
    _get_grade_level 9 subject = "Algebra 1".toList ∧
    _get_grade_level 10 subject = "Geometry".toList ∧
    _get_grade_level 11 subject = "AFDA".toList ∧
    _get_grade_level 12 subject = "Algebra 2".toList ∧
    _get_grade_level 13 subject = "Trigonometry".toList ∧
    _get_grade_level 14 subject = "Computational Mathematics".toList ∧
    _get_grade_level 15 subject = "Probability & Statistics".toList ∧
    _get_grade_level 16 subject = "Discrete Mathematics".toList ∧
    _get_grade_level 17 subject = "Mathematical Analysis".toList ∧
    _get_grade_level 18 subject = "Data Science".toList ∧
    ((num < 1 ∨ 18 < num) → _get_grade_level num subject = subject) := by
  refine ⟨fun h => by rw [_get_grade_level, if_pos h],
    rfl, rfl, rfl, rfl, rfl, rfl, rfl, rfl, rfl, rfl, fun h => ?_⟩
  have e9 : (num == (9 : Int)) = false := beq_eq_false_iff_ne.mpr (by omega)
  have e10 : (num == (10 : Int)) = false := beq_eq_false_iff_ne.mpr (by omega)
  have e11 : (num == (11 : Int)) = false := beq_eq_false_iff_ne.mpr (by omega)
  have e12 : (num == (12 : Int)) = false := beq_eq_false_iff_ne.mpr (by omega)
  have e13 : (num == (13 : Int)) = false := beq_eq_false_iff_ne.mpr (by omega)
  have e14 : (num == (14 : Int)) = false := beq_eq_false_iff_ne.mpr (by omega)
  have e15 : (num == (15 : Int)) = false := beq_eq_false_iff_ne.mpr (by omega)
  have e16 : (num == (16 : Int)) = false := beq_eq_false_iff_ne.mpr (by omega)
  have e17 : (num == (17 : Int)) = false := beq_eq_false_iff_ne.mpr (by omega)
  have e18 : (num == (18 : Int)) = false := beq_eq_false_iff_ne.mpr (by omega)
  rw [_get_grade_level, if_neg (by omega)]
  simp [subject_map, List.lookup, e9, e10, e11, e12, e13, e14, e15, e16, e17, e18]

/-- Witness for C3 at the spec's concrete inputs 5, 11 and 99. -/
theorem c3_resolve_grade_level_witness :
    _get_grade_level 5 "X".toList = "Grade ".toList ++ (toString (5 : Int)).toList ∧
    _get_grade_level 11 "X".toList = "AFDA".toList ∧
    _get_grade_level 99 "Biology".toList = "Biology".toList :=
  ⟨(c3_resolve_grade_level 5 "X".toList).1 (by decide),
   (c3_resolve_grade_level 11 "X".toList).2.2.2.1,
   (c3_resolve_grade_level 99 "Biology".toList).2.2.2.2.2.2.2.2.2.2.2 (by decide)⟩

theorem spanP_append_eq (p : Char → Bool) (cs : List Char) :
    (spanP p cs).1 ++ (spanP p cs).2 = cs := by
  induction cs with
  | nil => rfl
  | cons c cs ih =>
    cases h : p c with
    | true => simp [spanP, h, ih]
    | false => simp [spanP, h]

theorem spanP_fst_all (p : Char → Bool) (cs : List Char) :
    ∀ x ∈ (spanP p cs).1, p x = true := by
  induction cs with
  | nil => simp [spanP]
  | cons c cs ih =>
    cases h : p c with
    | true =>
      simp only [spanP, h, if_pos]
      intro x hx
      rcases List.mem_cons.mp hx with rfl | hx
      · exact h
      · exact ih x hx
    | false => simp [spanP, h]

theorem dotDigit_iff (l : List Char) :
    dotDigit l = true ↔ ∃ c t, l = '.' :: c :: t ∧ c.isDigit = true := by
  match l with
  | [] => simp [dotDigit]
  | [x] => simp [dotDigit]
  | x :: y :: t =>
    simp only [dotDigit, Bool.and_eq_true, decide_eq_true_eq]
    constructor
    · rintro ⟨rfl, hy⟩
      exact ⟨y, t, rfl, hy⟩
    · rintro ⟨c, t', he, hc⟩
      obtain ⟨rfl, rfl, rfl⟩ : x = '.' ∧ y = c ∧ t = t' := by
        simpa using he
      exact ⟨rfl, hc⟩

theorem letterPat_iff (cs : List Char) :
    letterPat cs = true ↔
      ∃ u d rest, cs = u ++ '.' :: (d ++ rest) ∧ u ≠ [] ∧ u.length ≤ 4 ∧
        (∀ x ∈ u, x.isUpper = true) ∧ d ≠ [] ∧ (∀ x ∈ d, x.isDigit = true) := by
  constructor
  · intro h
    obtain ⟨k, hk, hb⟩ := List.any_eq_true.mp h
    simp only [Bool.and_eq_true, beq_iff_eq, List.all_eq_true] at hb
    obtain ⟨⟨hlen, hup⟩, hdd⟩ := hb
    obtain ⟨c, t, hdrop, hc⟩ := (dotDigit_iff _).mp hdd
    have hk4 : k = 4 ∨ k = 3 ∨ k = 2 ∨ k = 1 := by simpa using hk
    refine ⟨cs.take k, [c], t, ?_, ?_, ?_, hup, by simp, by simp [hc]⟩
    · conv_lhs => rw [← List.take_append_drop k cs]
      rw [hdrop]
      simp
    · intro hnil
      rw [hnil] at hlen
      simp at hlen
      omega
    · rw [hlen]
      omega
  · rintro ⟨u, d, rest, rfl, hu, hu4, hup, hd, hdig⟩
    obtain ⟨c, d', rfl⟩ := List.exists_cons_of_ne_nil hd
    apply List.any_eq_true.mpr
    refine ⟨u.length, ?_, ?_⟩
    · have h1 : 1 ≤ u.length := by
        cases u with
        | nil => exact absurd rfl hu
        | cons a as => simp
      simp only [List.mem_cons, List.mem_singleton, List.not_mem_nil, or_false]
      omega
    · simp only [Bool.and_eq_true, beq_iff_eq, List.all_eq_true]
      refine ⟨⟨?_, ?_⟩, ?_⟩
      · rw [List.take_left]
      · intro x hx
        rw [List.take_left] at hx
        exact hup x hx
      · rw [List.drop_left]
        simp [dotDigit, hdig c (by simp)]

theorem numPat_iff (cs : List Char) :
    numPat cs = true ↔
      ∃ a d rest, cs = a ++ '.' :: (d ++ rest) ∧ a ≠ [] ∧
        (∀ x ∈ a, x.isDigit = true) ∧ d ≠ [] ∧ (∀ x ∈ d, x.isDigit = true) := by
  constructor
  · intro h
    simp only [numPat, Bool.and_eq_true, Bool.not_eq_true'] at h
    obtain ⟨hne, hdd⟩ := h
    obtain ⟨c, t, hsnd, hc⟩ := (dotDigit_iff _).mp hdd
    refine ⟨(spanP Char.isDigit cs).1, [c], t, ?_, ?_, spanP_fst_all _ cs, by simp, by simp [hc]⟩
    · conv_lhs => rw [← spanP_append_eq Char.isDigit cs]
      rw [hsnd]
      simp
    · intro hnil
      rw [hnil] at hne
      simp at hne
  · rintro ⟨a, d, rest, rfl, ha, hadig, hd, hdig⟩
    obtain ⟨c, d', rfl⟩ := List.exists_cons_of_ne_nil hd
    have hspan := spanP_append_cons Char.isDigit a '.' ((c :: d') ++ rest) hadig (by decide)
    have hae : a.isEmpty = false := by
      cases a with
      | nil => exact absurd rfl ha
      | cons x xs => rfl
    simp only [List.cons_append] at hspan
    simp [numPat, hspan, hae, ha, dotDigit, hdig c (by simp)]

theorem extractParas_spec (ps : List Para) :
    extractParas ps =
      ((ps.map fun p => ({ text := pyStrip p.text, style := p.style } : Para)).filter
          fun q => !q.text.isEmpty,
        (((ps.map fun p => ({ text := pyStrip p.text, style := p.style } : Para)).filter
          fun q => !q.text.isEmpty).map Para.text).filter _is_standard) := by
  induction ps with
  | nil => rfl
  | cons p ps ih =>
    cases ht : (pyStrip p.text).isEmpty with
    | true => simp [extractParas, List.filter_cons, ht, ih]
    | false =>
      cases hs : _is_standard (pyStrip p.text) with
      | true => simp [extractParas, List.filter_cons, ht, hs, ih]
      | false => simp [extractParas, List.filter_cons, ht, hs, ih]

theorem extractTables_spec (ts : List (List (List (List Char)))) :
    extractTables ts = (ts.map tableData).filter fun td => !td.isEmpty := by
  induction ts with
  | nil => rfl
  | cons t ts ih =>
    cases h : (tableData t).isEmpty with
    | true => simp [extractTables, List.filter_cons, h, ih]
    | false => simp [extractTables, List.filter_cons, h, ih]

/-- Claim C4: for every input document the record built by
`_extract_content` stores `total_paragraphs` equal to the length of its
paragraph list and `total_tables` equal to the length of its table list. -/
theorem c4_totals (doc : DocxDoc) :
    (_extract_content doc).total_paragraphs = (_extract_content doc).paragraphs.length ∧
    (_extract_content doc).total_tables = (_extract_content doc).tables.length :=
  ⟨rfl, rfl⟩

/-- Claim C5: `_extract_content` keeps exactly the paragraphs whose
stripped text is nonempty, storing the stripped text, and
`identified_standards` is exactly the order-preserving (duplicates
retained) sub-list of the retained paragraphs' verbatim stripped texts on
which `_is_standard` holds. -/
theorem c5_identified_standards (doc : DocxDoc) :
    (_extract_content doc).paragraphs =
      ((doc.paragraphs.map fun p => ({ text := pyStrip p.text, style := p.style } : Para)).filter
        fun q => !q.text.isEmpty) ∧
    (_extract_content doc).identified_standards =
      ((_extract_content doc).paragraphs.map Para.text).filter _is_standard := by
  have h := extractParas_spec doc.paragraphs
  constructor
  · show (extractParas doc.paragraphs).1 = _
    rw [h]
  · show (extractParas doc.paragraphs).2 =
      ((extractParas doc.paragraphs).1.map Para.text).filter _is_standard
    rw [h]

/-- Claim C6: `_extract_content` builds each table by stripping every
cell, drops rows whose every cell strips to empty, and drops a table with
zero retained rows entirely: it appears nowhere in `tables` and does not
count towards `total_tables`. -/
theorem c6_tables (doc : DocxDoc) :
    (_extract_content doc).tables =
      ((doc.tables.map fun t =>
          (t.map fun row => row.map pyStrip).filter fun row =>
            row.any fun cell => !cell.isEmpty).filter fun td => !td.isEmpty) ∧
    (_extract_content doc).total_tables =
      ((doc.tables.map fun t =>
          (t.map fun row => row.map pyStrip).filter fun row =>
            row.any fun cell => !cell.isEmpty).filter fun td => !td.isEmpty).length := by
  have h := extractTables_spec doc.tables
  have ht : tableData = fun t =>
      (t.map fun row => row.map pyStrip).filter fun row =>
        row.any fun cell => !cell.isEmpty := by
    funext t
    rfl
  constructor <;> simp [_extract_content, h, ht]

/-- Claim C7: `_is_standard(text)` is true exactly when the text begins
with 1 to 4 uppercase letters, a literal dot and a digit sequence, or
with a digit sequence, a dot, a digit sequence and an optional lowercase
letter; only that prefix is examined, so the arbitrary `rest` after it
never changes the result (the optional lowercase letter is part of
`rest`).  The spec's three concrete examples are also checked. -/
theorem c7_is_standard (cs : List Char) :
    (_is_standard cs = true ↔
      ((∃ u d rest, cs = u ++ '.' :: (d ++ rest) ∧ u ≠ [] ∧ u.length ≤ 4 ∧
          (∀ x ∈ u, x.isUpper = true) ∧ d ≠ [] ∧ (∀ x ∈ d, x.isDigit = true)) ∨
        (∃ a d rest, cs = a ++ '.' :: (d ++ rest) ∧ a ≠ [] ∧
          (∀ x ∈ a, x.isDigit = true) ∧ d ≠ [] ∧ (∀ x ∈ d, x.isDigit = true)))) ∧
    _is_standard "1.1 Count to ten".toList = true ∧
    _is_standard "G.5 Solve equations".toList = true ∧
    _is_standard "Introduction to the strand".toList = false := by
  refine ⟨?_, by decide, by decide, by decide⟩
  rw [_is_standard, Bool.or_eq_true, letterPat_iff, numPat_iff]

/-- Claim C8: `validate_output` is a total Boolean function (every
`AssertionError`, `KeyError` and `TypeError` of the assertion body is
caught and becomes `false`, so nothing propagates), it returns `true`
exactly when every check of the shape contract passes, and on the spec's
two examples: a strand with an empty standards list validates, a strand
missing `strand_code` does not. -/
theorem c8_validate_contract :
    (∀ data, validate_output data = true ↔ ValidShape data) ∧
    validate_output exGood = true ∧
    validate_output exBadStrand = false :=
  ⟨validate_iff, rfl, rfl⟩

/-- Counterexample to claim C9 as stated: a record whose single standard
holds an *empty* `knowledge_and_skills` list passes `validate_output`,
so a validated record need not give every standard at least one
Objective, and no `objective_text` is present anywhere in it. -/
theorem c9_counterexample :
    validate_output (docKAS (.list [])) = true ∧
    pySub (docKAS (.list [])) "strands".toList =
      .ok (.list [.dict [("strand_code".toList, .str "NS".toList),
        ("strand_name".toList, .str "X".toList),
        ("standards".toList, .list [stdKAS (.list [])])]]) ∧
    pySub (stdKAS (.list [])) "knowledge_and_skills".toList = .ok (.list []) :=
  ⟨rfl, rfl, rfl⟩

/-- Claim C9 as amended: a record that passes validation carries
`document_metadata` and `strands`, `strands` is a list, every strand
carries `strand_code`, `strand_name` and `standards` with `standards` a
list, and every standard carries `standard_id`, `standard_statement` and
`knowledge_and_skills`; validation does **not** guarantee at least one
Objective per standard (the `knowledge_and_skills` value may be an empty
list) nor the presence of `objective_text`. -/
theorem c9_validated_shape (data : PyVal) (h : validate_output data = true) :
    ValidShape data :=
  (validate_iff data).mp h

/-- Witness for C9's amended theorem at a concrete validated record. -/
theorem c9_validated_shape_witness :
    validate_output exGood = true ∧ ValidShape exGood :=
  ⟨rfl, c9_validated_shape exGood rfl⟩

/-- Claim C10: the per-standard check of `validate_output` only tests
that the key `knowledge_and_skills` is present and never inspects its
value, so a record whose every required key is present validates no
matter what value — a string, a number, `None`, anything — sits under
`knowledge_and_skills`. -/
theorem c10_kas_value_ignored (v : PyVal) :
    checkStandardE (stdKAS v) = .ok () ∧ validate_output (docKAS v) = true :=
  ⟨rfl, rfl⟩

end SOLFormatter
